import Mathlib

/-!
Shallow embedding of the `optics` TypeScript library (src/index.ts).

Conventions of the embedding:
* the TypeScript union `A | ((a : A) => A)` accepted by every setter is
  modelled by the tagged sum `SetArg A`; the runtime dispatch
  `typeof a === 'function'` corresponds to matching on the constructor
  (this is faithful whenever the target type `A` is not itself a function
  type; the runtime-typing corner is modelled separately on `JVal` below);
* the TypeScript value `undefined` used by prisms is modelled by `Option`;
* objects updated by `prop`'s spread `{...s, [key]: newA}` are modelled as
  total maps `K → V` (the map equal to `s` except at `key`);
* every branch of the `compose` dispatch becomes one named definition,
  mirroring the corresponding branch of the source.
-/

namespace Optics

/-- Setter argument: either a literal replacement value or an updater
function, mirroring `a: A | ((a: A) => A)` in the source. -/
inductive SetArg (A : Type) where
  | lit : A → SetArg A
  | fn : (A → A) → SetArg A

/-- Lens record: total getter and setter, mirroring the `Lens<S, A>` type. -/
structure Lens (S A : Type) where
  get : S → A
  set : SetArg A → S → S

/-- Prism record: partial getter (absence as `none`) and setter, mirroring
the `Prism<S, A>` type (`get` may return `undefined`). -/
structure Prism (S A : Type) where
  get : S → Option A
  set : SetArg A → S → S

/-- Iso record: a pair of total conversions, mirroring the `Iso<S, A>` type
(`to` and `from` are Lean keywords, so the fields are `to'` and `from'`). -/
structure Iso (S A : Type) where
  to' : S → A
  from' : A → S

/-- Lens for one field of an object, mirroring `prop` (src/index.ts:158-165):
`get` reads `s[key]`; `set` computes `newA` by the function/literal dispatch
and returns the shallow copy `{...s, [key]: newA}`, modelled as the map that
equals `s` away from `key`. -/
def prop {K V : Type} [DecidableEq K] (key : K) : Lens (K → V) V where
  get := fun s => s key
  set := fun a s =>
    let newA := match a with
      | SetArg.fn f => f (s key)
      | SetArg.lit v => v
    fun k => if k = key then newA else s k

/-- Lens∘Lens branch of `compose` (src/index.ts:185-193). -/
def composeLensLens {S A B : Type} (outer : Lens S A) (inner : Lens A B) :
    Lens S B where
  get := fun s => inner.get (outer.get s)
  set := fun b s =>
    let newA := inner.set b (outer.get s)
    outer.set (SetArg.lit newA) s

/-- Lens∘Iso branch of `compose` (src/index.ts:197-207). -/
def composeLensIso {S A B : Type} (outer : Lens S A) (inner : Iso A B) :
    Lens S B where
  get := fun s => inner.to' (outer.get s)
  set := fun b s =>
    let currentA := outer.get s
    let nextB := match b with
      | SetArg.fn f => f (inner.to' currentA)
      | SetArg.lit v => v
    let newA := inner.from' nextB
    outer.set (SetArg.lit newA) s

/-- Iso∘Lens branch of `compose` (src/index.ts:211-220). -/
def composeIsoLens {S A B : Type} (outer : Iso S A) (inner : Lens A B) :
    Lens S B where
  get := fun s => inner.get (outer.to' s)
  set := fun b s =>
    let a := outer.to' s
    let newA := inner.set b a
    outer.from' newA

/-- Prism∘Iso branch of `compose` (src/index.ts:224-245): the getter maps
through the iso when the outer value is present; the setter no-ops on a
function updater over an absent outer value, but a literal is converted by
`inner.from` and delegated to `outer.set` even when absent. -/
def composePrismIso {S A B : Type} (outer : Prism S A) (inner : Iso A B) :
    Prism S B where
  get := fun s =>
    match outer.get s with
    | none => none
    | some outerValue => some (inner.to' outerValue)
  set := fun b s =>
    let outerValue := outer.get s
    match b with
    | SetArg.fn f =>
      match outerValue with
      | none => s
      | some a =>
        let currentB := inner.to' a
        let nextB := f currentB
        let newOuterValue := inner.from' nextB
        outer.set (SetArg.lit newOuterValue) s
    | SetArg.lit v =>
      let newOuterValue := inner.from' v
      outer.set (SetArg.lit newOuterValue) s

/-- Iso∘Prism branch of `compose` (src/index.ts:249-259). -/
def composeIsoPrism {S A B : Type} (outer : Iso S A) (inner : Prism A B) :
    Prism S B where
  get := fun s => inner.get (outer.to' s)
  set := fun b s =>
    let a := outer.to' s
    let newA := inner.set b a
    outer.from' newA

/-- Iso∘Iso branch of `compose` (src/index.ts:263-267). -/
def composeIsoIso {S A B : Type} (outer : Iso S A) (inner : Iso A B) :
    Iso S B where
  to' := fun s => inner.to' (outer.to' s)
  from' := fun b => outer.from' (inner.from' b)

/-- The fallback branch of `compose` narrows `outer`/`inner` to
`Lens | Prism`; this sum mirrors that narrowing. -/
inductive LP (S A : Type) where
  | lens : Lens S A → LP S A
  | prism : Prism S A → LP S A

/-- Getter of a lens-or-prism as used by the fallback branch: a lens getter
never yields `undefined` (the source comment "lens.get returns B,
prism.get returns B | undefined"). -/
def LP.get {S A : Type} : LP S A → S → Option A
  | LP.lens l, s => some (l.get s)
  | LP.prism p, s => p.get s

/-- Setter of a lens-or-prism as used by the fallback branch. -/
def LP.set {S A : Type} : LP S A → SetArg A → S → S
  | LP.lens l => l.set
  | LP.prism p => p.set

/-- Fallback branch of `compose` (src/index.ts:270-289), covering
Lens∘Prism, Prism∘Lens and Prism∘Prism: `get` returns `undefined` when the
outer value is absent, otherwise applies the inner getter; `set` returns
the source unchanged when the outer value is absent, otherwise threads the
argument through the inner setter and delegates the resulting literal to
the outer setter. -/
def composeLP {S A B : Type} (outer : LP S A) (inner : LP A B) : Prism S B where
  get := fun s =>
    match outer.get s with
    | none => none
    | some outerValue => inner.get outerValue
  set := fun b s =>
    match outer.get s with
    | none => s
    | some outerValue =>
      let newOuterValue := inner.set b outerValue
      outer.set (SetArg.lit newOuterValue) s

/-- Tagged optic, mirroring the `_tag` discriminator of the source. -/
inductive Optic (S A : Type) where
  | lens : Lens S A → Optic S A
  | prism : Prism S A → Optic S A
  | iso : Iso S A → Optic S A

/-- Runtime tag of an optic (`_tag` in the source). -/
inductive Tag where
  | lens
  | prism
  | iso
deriving DecidableEq

/-- Reads the `_tag` discriminator of an optic value. -/
def Optic.tag {S A : Type} : Optic S A → Tag
  | Optic.lens _ => Tag.lens
  | Optic.prism _ => Tag.prism
  | Optic.iso _ => Tag.iso

/-- Getter of an optic seen as possibly partial: lens and iso getters are
total (an iso "gets" via `to`), a prism getter may be absent. -/
def Optic.getOpt {S A : Type} : Optic S A → S → Option A
  | Optic.lens l, s => some (l.get s)
  | Optic.prism p, s => p.get s
  | Optic.iso i, s => some (i.to' s)

/-- Universal composition dispatch (src/index.ts:180-290): each pair of
tags is routed to the corresponding branch definition, in the source's
branch structure. -/
def compose {S A B : Type} : Optic S A → Optic A B → Optic S B
  | Optic.lens o, Optic.lens i => Optic.lens (composeLensLens o i)
  | Optic.lens o, Optic.iso i => Optic.lens (composeLensIso o i)
  | Optic.iso o, Optic.lens i => Optic.lens (composeIsoLens o i)
  | Optic.prism o, Optic.iso i => Optic.prism (composePrismIso o i)
  | Optic.iso o, Optic.prism i => Optic.prism (composeIsoPrism o i)
  | Optic.iso o, Optic.iso i => Optic.iso (composeIsoIso o i)
  | Optic.lens o, Optic.prism i => Optic.prism (composeLP (LP.lens o) (LP.prism i))
  | Optic.prism o, Optic.lens i => Optic.prism (composeLP (LP.prism o) (LP.lens i))
  | Optic.prism o, Optic.prism i => Optic.prism (composeLP (LP.prism o) (LP.prism i))

/-- Prism constructor with a base-shaped caller setter, mirroring the
runtime of `Prism().of` (src/index.ts:345-364): the normalized setter
dispatches on the argument; a function updater is resolved through `get`
(no-op when absent) and the resulting literal is passed to the caller's
setter, which the implementation always calls with a plain value. -/
def of {S A : Type} (g : S → Option A) (st : A → S → S) : Prism S A where
  get := g
  set := fun a s =>
    match a with
    | SetArg.fn f =>
      match g s with
      | none => s
      | some current => st (f current) s
    | SetArg.lit v => st v s

/-- Prism constructor given the fuller setter shape: at runtime `of` still
calls the caller's setter with a plain (non-function) value, which the
fuller setter's own dispatch classifies as a literal; hence supplying the
fuller shape is supplying its literal branch as a base setter. -/
def ofFull {S A : Type} (g : S → Option A) (F : SetArg A → S → S) : Prism S A :=
  of g (fun a s => F (SetArg.lit a) s)

/-- The variant table of the specification (§4.4), written from the claim's
words, to be compared with the tags `compose` actually produces. -/
def specTagTable : Tag → Tag → Tag
  | Tag.lens, Tag.lens => Tag.lens
  | Tag.lens, Tag.iso => Tag.lens
  | Tag.iso, Tag.lens => Tag.lens
  | Tag.iso, Tag.iso => Tag.iso
  | Tag.lens, Tag.prism => Tag.prism
  | Tag.prism, Tag.lens => Tag.prism
  | Tag.prism, Tag.prism => Tag.prism
  | Tag.prism, Tag.iso => Tag.prism
  | Tag.iso, Tag.prism => Tag.prism

/-!
Untyped model of the runtime `typeof` dispatch.

TypeScript types are erased at runtime, so the `typeof a === 'function'`
check in the setters operates on untyped JavaScript values.  The fragment
below models just enough of those values to express that check: numbers,
strings, `undefined`, objects (association lists of fields) and function
values (a small syntax of functions with an evaluator, since Lean
inductives cannot store `JVal → JVal` directly).
-/

mutual
/-- Fragment of JavaScript runtime values. -/
inductive JVal where
  | vnum : Int → JVal
  | vstr : String → JVal
  | vundef : JVal
  | vobj : List (String × JVal) → JVal
  | vfun : JFun → JVal

/-- Fragment of JavaScript function values, as syntax with an evaluator. -/
inductive JFun where
  | constFn : JVal → JFun
  | idFn : JFun
end

/-- Evaluates a modelled JavaScript function on an argument. -/
def JFun.applyJ : JFun → JVal → JVal
  | JFun.constFn v, _ => v
  | JFun.idFn, v => v

/-- Models `value === undefined`. -/
def isUndefinedJ : JVal → Bool
  | JVal.vundef => true
  | _ => false

/-- Models `s[key]`: the field's value, or `undefined` when missing. -/
def getFieldJ : List (String × JVal) → String → JVal
  | [], _ => JVal.vundef
  | (k, v) :: rest, key => if k = key then v else getFieldJ rest key

/-- Models the spread `{...s, [key]: v}`: replaces the field in place or
appends it. -/
def setFieldJ : List (String × JVal) → String → JVal → List (String × JVal)
  | [], key, v => [(key, v)]
  | (k, w) :: rest, key, v =>
    if k = key then (k, v) :: rest else (k, w) :: setFieldJ rest key v

/-- Getter of `prop` over runtime values (src/index.ts:160). -/
def jpropGet (key : String) (s : List (String × JVal)) : JVal :=
  getFieldJ s key

/-- Setter of `prop` over runtime values (src/index.ts:161-164): the
argument is a single untyped value and `typeof a === 'function'` decides
whether it is applied to the current field or installed as is. -/
def jpropSet (key : String) (a : JVal) (s : List (String × JVal)) :
    List (String × JVal) :=
  let newA := match a with
    | JVal.vfun f => f.applyJ (getFieldJ s key)
    | _ => a
  setFieldJ s key newA

/-- Normalized setter of `Prism().of` over runtime values
(src/index.ts:353-361): a function argument is resolved through the
caller's getter (`undefined` means no-op) and the caller's setter is
called with the resolved value; any other argument is passed directly. -/
def jofSet (g : JVal → JVal) (st : JVal → JVal → JVal) (a s : JVal) : JVal :=
  match a with
  | JVal.vfun f =>
    let current := g s
    if isUndefinedJ current then s
    else st (f.applyJ current) s
  | _ => st a s

/-- Setter of the Lens∘Iso branch of `compose` over runtime values
(src/index.ts:200-207), with its `typeof b === 'function'` dispatch. -/
def jcomposeLensIsoSet (outerGet : JVal → JVal) (outerSet : JVal → JVal → JVal)
    (innerTo innerFrom : JVal → JVal) (b s : JVal) : JVal :=
  let currentA := outerGet s
  let nextB := match b with
    | JVal.vfun f => f.applyJ (innerTo currentA)
    | _ => b
  let newA := innerFrom nextB
  outerSet newA s

/-!
Concrete optics used to instantiate the quantified statements below.
-/

/-- Prism focusing the value of an `Option Nat` source, built through `of`
with a base setter that materializes the branch. -/
def somePrism : Prism (Option Nat) Nat :=
  of (fun s => s) (fun a _ => some a)

/-- Prism on `Nat` whose getter is always present, built through `of`. -/
def natIdPrism : Prism Nat Nat :=
  of (fun a => some a) (fun v _ => v)

/-- Identity iso on `Nat`. -/
def natIdIso : Iso Nat Nat where
  to' := fun n => n
  from' := fun n => n

/-- Negation iso on `Int`; it satisfies the iso round-trip contract. -/
def negIso : Iso Int Int where
  to' := fun n => -n
  from' := fun n => -n

/-- Identity lens on `Int`. -/
def intIdLens : Lens Int Int where
  get := fun s => s
  set := fun a s =>
    match a with
    | SetArg.fn f => f s
    | SetArg.lit v => v

/-- An iso on `Nat` that violates the round-trip caller contract
(`to (from b)` is constantly `0`). -/
def badIso : Iso Nat Nat where
  to' := fun n => n
  from' := fun _ => 0

/-!
Theorems about the embedding, one per claim, with witnesses and
counterexamples on the concrete optics above.
-/

/-- Claim C3: for every pair of optics, `compose` returns an optic whose
tag follows the fixed combination table: Lens∘Lens, Lens∘Iso and Iso∘Lens
yield a `lens`, Iso∘Iso yields an `iso`, and the five remaining
combinations yield a `prism`. -/
theorem compose_variant_table {S A B : Type} (o : Optic S A) (i : Optic A B) :
    (compose o i).tag = specTagTable o.tag i.tag := by
  cases o <;> cases i <;> rfl

/-- Claim C2: for the general Prism-producing compositions (the fallback
branch of `compose`, covering Lens∘Prism, Prism∘Lens and Prism∘Prism), the
composed `set` first obtains the outer value via the outer optic's getter;
if it is absent, the original source is returned unchanged, uniformly for
literal and function arguments. -/
theorem composed_set_noop_on_absent_outer {S A B : Type}
    (outer : LP S A) (inner : LP A B) (b : SetArg B) (s : S)
    (h : outer.get s = none) :
    (composeLP outer inner).set b s = s := by
  simp [composeLP, h]

/-- Witness for C2: a Prism∘Prism composite over an absent outer branch
returns the source unchanged, here with a literal argument. -/
theorem composed_set_noop_on_absent_outer_witness :
    (composeLP (LP.prism somePrism) (LP.prism natIdPrism)).set
      (SetArg.lit 5) (none : Option Nat) = none :=
  composed_set_noop_on_absent_outer (LP.prism somePrism) (LP.prism natIdPrism)
    (SetArg.lit 5) none rfl

/-- Claim C8: for every composed optic whose outer operand is a Prism, when
the outer getter is absent on a source, the composed getter returns absent,
independently of the inner optic (whose getter, or `to` conversion, is
never consulted in that case). -/
theorem prism_outer_absent_get_none {S A B : Type} (po : Prism S A)
    (inner : Optic A B) (s : S) (h : po.get s = none) :
    (compose (Optic.prism po) inner).getOpt s = none := by
  cases inner <;>
    simp [compose, Optic.getOpt, composeLP, composePrismIso, LP.get, h]

/-- Witness for C8: the Prism∘Prism composite of `somePrism` with
`natIdPrism` reads `none` from the absent source. -/
theorem prism_outer_absent_get_none_witness :
    (compose (Optic.prism somePrism) (Optic.prism natIdPrism)).getOpt
      (none : Option Nat) = none :=
  prism_outer_absent_get_none somePrism (Optic.prism natIdPrism) none rfl

/-- Claim C6: the `of` constructor normalizes a base setter into the fuller
contract: a literal is passed to the base setter directly; a function
updater first consults the getter, no-ops when the result is absent, and
otherwise applies the function to the retrieved value and passes the
result to the base setter. -/
theorem of_normalizes_base_setter {S A : Type} (g : S → Option A)
    (st : A → S → S) :
    (∀ (v : A) (s : S), (of g st).set (SetArg.lit v) s = st v s) ∧
    (∀ (f : A → A) (s : S), g s = none →
      (of g st).set (SetArg.fn f) s = s) ∧
    (∀ (f : A → A) (s : S) (a : A), g s = some a →
      (of g st).set (SetArg.fn f) s = st (f a) s) := by
  refine ⟨fun v s => rfl, fun f s h => ?_, fun f s a h => ?_⟩ <;> simp [of, h]

/-- Witness for C6 on `somePrism`: the function updater no-ops on `none`
and updates through the base setter on `some 3`. -/
theorem of_normalizes_base_setter_witness :
    somePrism.set (SetArg.fn (fun n => n + 1)) none = none ∧
    somePrism.set (SetArg.fn (fun n => n + 1)) (some 3) = some 4 :=
  ⟨(of_normalizes_base_setter (fun s => s) (fun a _ => some a)).2.1
      (fun n => n + 1) none rfl,
   ((of_normalizes_base_setter (fun s => s) (fun a _ => some a)).2.2
      (fun n => n + 1) (some 3) 3 rfl).trans rfl⟩

/-- Claim C7: behavior of the Prism∘Iso composition: the getter is absent
exactly when the outer getter is, and otherwise converts with `to`; a
function updater no-ops on an absent outer value and otherwise updates
through the iso and delegates to the outer setter; a literal is converted
with `from` and delegated to the outer setter even when the outer value is
absent. -/
theorem prism_iso_composition_behavior {S A B : Type} (po : Prism S A)
    (ii : Iso A B) :
    (∀ s : S, (composePrismIso po ii).get s =
      (match po.get s with
       | none => none
       | some a => some (ii.to' a))) ∧
    (∀ (f : B → B) (s : S), po.get s = none →
      (composePrismIso po ii).set (SetArg.fn f) s = s) ∧
    (∀ (f : B → B) (s : S) (a : A), po.get s = some a →
      (composePrismIso po ii).set (SetArg.fn f) s =
        po.set (SetArg.lit (ii.from' (f (ii.to' a)))) s) ∧
    (∀ (v : B) (s : S), (composePrismIso po ii).set (SetArg.lit v) s =
      po.set (SetArg.lit (ii.from' v)) s) := by
  refine ⟨fun s => rfl, fun f s h => ?_, fun f s a h => ?_, fun v s => rfl⟩ <;>
    simp [composePrismIso, h]

/-- Witness for C7 on `somePrism` and the identity iso: function updaters
no-op on `none` and update through the chain on `some 3`; a literal
materializes through the outer setter even on `none`. -/
theorem prism_iso_composition_behavior_witness :
    (composePrismIso somePrism natIdIso).set
        (SetArg.fn (fun b => b + 2)) none = none ∧
    (composePrismIso somePrism natIdIso).set
        (SetArg.fn (fun b => b + 2)) (some 3) = some 5 ∧
    (composePrismIso somePrism natIdIso).set (SetArg.lit 9) none = some 9 :=
  ⟨(prism_iso_composition_behavior somePrism natIdIso).2.1
      (fun b => b + 2) none rfl,
   ((prism_iso_composition_behavior somePrism natIdIso).2.2.1
      (fun b => b + 2) (some 3) 3 rfl).trans rfl,
   ((prism_iso_composition_behavior somePrism natIdIso).2.2.2 9 none).trans rfl⟩

/-- Claim C10: a prism built by `of` only ever calls the caller-supplied
setter with a literal value, so when the caller supplies the fuller setter
shape its own function-updater branch is never exercised: two fuller
setters that agree on literal arguments yield prisms with identical `set`
behavior. -/
theorem of_never_calls_fn_branch {S A : Type} (g : S → Option A)
    (F1 F2 : SetArg A → S → S)
    (h : ∀ (a : A) (s : S), F1 (SetArg.lit a) s = F2 (SetArg.lit a) s)
    (arg : SetArg A) (s : S) :
    (ofFull g F1).set arg s = (ofFull g F2).set arg s := by
  cases arg with
  | lit v => exact h v s
  | fn f =>
    show (of g fun a s => F1 (SetArg.lit a) s).set (SetArg.fn f) s = _
    cases hgs : g s <;> simp [ofFull, of, hgs, h]

/-- Witness for C10: two fuller setters differing only on their
function-updater branch produce the same result even for a function
update, because the normalized setter resolves the update itself. -/
theorem of_never_calls_fn_branch_witness :
    (ofFull (fun s => s) (fun arg _ =>
        match arg with
        | SetArg.lit a => some a
        | SetArg.fn _ => none) : Prism (Option Nat) Nat).set
      (SetArg.fn (fun n => n + 1)) (some 3) =
    (ofFull (fun s => s) (fun arg _ =>
        match arg with
        | SetArg.lit a => some a
        | SetArg.fn f => some (f 0)) : Prism (Option Nat) Nat).set
      (SetArg.fn (fun n => n + 1)) (some 3) :=
  of_never_calls_fn_branch _ _ _ (fun _ _ => rfl) _ _

/-- Claim C5: a `set` through a `prop` lens on field `key` preserves every
other field of the source (the spread copies them unchanged). -/
theorem prop_set_preserves_other_fields {K V : Type} [DecidableEq K]
    (key : K) (a : SetArg V) (s : K → V) (k : K) (h : k ≠ key) :
    (prop key).set a s k = s k := by
  cases a <;> simp [prop, h]

/-- Witness for C5: setting field `true` leaves field `false` at its old
value. -/
theorem prop_set_preserves_other_fields_witness :
    (prop true : Lens (Bool → Nat) Nat).set (SetArg.lit 7) (fun _ => 0)
      false = 0 :=
  prop_set_preserves_other_fields true (SetArg.lit 7) (fun _ => 0) false
    (by decide)

/-- Claim C9: the setters disambiguate their argument by the runtime
`typeof` check, so an argument that is a function value is always treated
as an updater applied to the current focused value and never installed as
the literal replacement; this holds at each `typeof` site — the `prop`
setter, the Lens∘Iso branch of `compose`, and the normalized `of` setter.
Consequently, on a field whose current value is itself a function,
`set` with a function literal stores the result of applying it (here the
constant `2`), not the function. -/
theorem fn_argument_always_updater :
    (∀ (key : String) (f : JFun) (s : List (String × JVal)),
      jpropSet key (JVal.vfun f) s =
        setFieldJ s key (f.applyJ (getFieldJ s key))) ∧
    (∀ (og : JVal → JVal) (os : JVal → JVal → JVal)
       (ito ifr : JVal → JVal) (f : JFun) (s : JVal),
      jcomposeLensIsoSet og os ito ifr (JVal.vfun f) s =
        os (ifr (f.applyJ (ito (og s)))) s) ∧
    (∀ (g : JVal → JVal) (st : JVal → JVal → JVal) (f : JFun) (s : JVal),
      jofSet g st (JVal.vfun f) s =
        if isUndefinedJ (g s) then s else st (f.applyJ (g s)) s) ∧
    jpropGet "k" (jpropSet "k" (JVal.vfun (JFun.constFn (JVal.vnum 2)))
      [("k", JVal.vfun (JFun.constFn (JVal.vnum 1)))]) = JVal.vnum 2 := by
  refine ⟨fun key f s => rfl, fun og os ito ifr f s => rfl,
    fun g st f s => rfl, rfl⟩

/-- Claim C4, counterexample: a Lens produced by the Lens∘Iso composition
with an iso violating its round-trip caller contract fails the get/set
round-trip: writing the literal `5` and reading back yields `0`. -/
theorem lens_roundtrip_refuted :
    ¬ ((composeLensIso (prop true : Lens (Bool → Nat) Nat) badIso).get
        ((composeLensIso (prop true : Lens (Bool → Nat) Nat) badIso).set
          (SetArg.lit 5) (fun _ => 1)) = 5) := by
  decide

/-- Claim C4, amended: the get/set round-trip `get (set (lit v) s) = v`
holds unconditionally for `prop` lenses; it holds for Lens∘Lens when both
components satisfy it; and it holds for Lens∘Iso and Iso∘Lens when the
lens component satisfies it and the iso satisfies its round-trip caller
contract `to (from b) = b`. -/
theorem lens_get_set_roundtrip {K V S A B : Type} [DecidableEq K] (key : K)
    (lo : Lens S A) (li : Lens A B) (io : Iso S A) (ii : Iso A B) :
    (∀ (s : K → V) (v : V),
      (prop key).get ((prop key).set (SetArg.lit v) s) = v) ∧
    ((∀ (s : S) (v : A), lo.get (lo.set (SetArg.lit v) s) = v) →
      (∀ (a : A) (v : B), li.get (li.set (SetArg.lit v) a) = v) →
      ∀ (s : S) (v : B), (composeLensLens lo li).get
        ((composeLensLens lo li).set (SetArg.lit v) s) = v) ∧
    ((∀ (s : S) (v : A), lo.get (lo.set (SetArg.lit v) s) = v) →
      (∀ b : B, ii.to' (ii.from' b) = b) →
      ∀ (s : S) (v : B), (composeLensIso lo ii).get
        ((composeLensIso lo ii).set (SetArg.lit v) s) = v) ∧
    ((∀ a : A, io.to' (io.from' a) = a) →
      (∀ (a : A) (v : B), li.get (li.set (SetArg.lit v) a) = v) →
      ∀ (s : S) (v : B), (composeIsoLens io li).get
        ((composeIsoLens io li).set (SetArg.lit v) s) = v) := by
  refine ⟨fun s v => ?_, fun ho hi s v => ?_, fun ho hto s v => ?_,
    fun hto hi s v => ?_⟩
  · simp [prop]
  · simp [composeLensLens, ho, hi]
  · simp [composeLensIso, ho, hto]
  · simp [composeIsoLens, hto, hi]

/-- Witness for the amended C4: concrete round-trips through a `prop` lens
and through each Lens-yielding composition with lawful components. -/
theorem lens_get_set_roundtrip_witness :
    (prop true : Lens (Bool → Nat) Nat).get
      ((prop true : Lens (Bool → Nat) Nat).set (SetArg.lit 7)
        (fun _ => 0)) = 7 ∧
    (composeLensLens intIdLens intIdLens).get
      ((composeLensLens intIdLens intIdLens).set (SetArg.lit 5) 0) = 5 ∧
    (composeLensIso intIdLens negIso).get
      ((composeLensIso intIdLens negIso).set (SetArg.lit 5) 0) = 5 ∧
    (composeIsoLens negIso intIdLens).get
      ((composeIsoLens negIso intIdLens).set (SetArg.lit 5) 0) = 5 :=
  ⟨(@lens_get_set_roundtrip Bool Nat Int Int Int _ true intIdLens intIdLens
      negIso negIso).1 (fun _ => 0) 7,
   (@lens_get_set_roundtrip Bool Nat Int Int Int _ true intIdLens intIdLens
      negIso negIso).2.1 (fun _ _ => rfl) (fun _ _ => rfl) 0 5,
   (@lens_get_set_roundtrip Bool Nat Int Int Int _ true intIdLens intIdLens
      negIso negIso).2.2.1 (fun _ _ => rfl) (fun b => neg_neg b) 0 5,
   (@lens_get_set_roundtrip Bool Nat Int Int Int _ true intIdLens intIdLens
      negIso negIso).2.2.2 (fun a => neg_neg a) (fun _ _ => rfl) 0 5⟩

/-- Claim C1, counterexample: the Prism∘Prism composition over a source
whose outer branch is absent: `set` with the literal `7` returns the
source unchanged instead of delegating to the outer prism's setter,
although that setter does materialize (it yields `some 7` on the same
source). -/
theorem composed_literal_set_refuted :
    compose (Optic.prism somePrism) (Optic.prism natIdPrism) =
      Optic.prism (composeLP (LP.prism somePrism) (LP.prism natIdPrism)) ∧
    (composeLP (LP.prism somePrism) (LP.prism natIdPrism)).set
      (SetArg.lit 7) (none : Option Nat) = none ∧
    somePrism.set (SetArg.lit 7) (none : Option Nat) = some 7 :=
  ⟨rfl, rfl, rfl⟩

/-- Claim C1, amended: only the Prism∘Iso composition materializes a
literal `set` over an absent outer branch, by converting with `from` and
delegating to the outer setter; the general compositions (Lens∘Prism,
Prism∘Lens, Prism∘Prism) return the source unchanged when the outer value
is absent, for a literal just as for a function. -/
theorem literal_set_materialization {S A B S2 A2 : Type}
    (po : Prism S2 A2) (ii : Iso A2 B) (outer : LP S A) (inner : LP A B)
    (v : B) (s : S) (s2 : S2) :
    (po.get s2 = none → (composePrismIso po ii).set (SetArg.lit v) s2 =
      po.set (SetArg.lit (ii.from' v)) s2) ∧
    (outer.get s = none → (composeLP outer inner).set (SetArg.lit v) s = s) := by
  refine ⟨fun _ => rfl, fun h => ?_⟩
  simp [composeLP, h]

/-- Witness for the amended C1: on the absent source `none`, the
Prism∘Iso composite materializes `some 5` while the Prism∘Prism composite
leaves the source unchanged. -/
theorem literal_set_materialization_witness :
    (composePrismIso somePrism natIdIso).set (SetArg.lit 5)
      (none : Option Nat) = some 5 ∧
    (composeLP (LP.prism somePrism) (LP.prism natIdPrism)).set
      (SetArg.lit 5) (none : Option Nat) = none :=
  ⟨((literal_set_materialization somePrism natIdIso (LP.prism somePrism)
      (LP.prism natIdPrism) 5 none none).1 rfl).trans rfl,
   (literal_set_materialization somePrism natIdIso (LP.prism somePrism)
      (LP.prism natIdPrism) 5 none none).2 rfl⟩

end Optics
